import Mathlib

/-!
Shallow embedding of the `demo` ink! contract
(`src/contracts/src/demo/lib.rs`): an ownership-gated approval registry.

The contract state is the pair of the owner recorded by the `Ownable`
implementation (set once at construction from the environment caller) and
a persistent mapping from contribution ids to `Contribution` records.
Caller identity, which the runtime supplies ambiently via
`Self::env().caller()`, is threaded through as an explicit argument, and
the events emitted through `emit_event` are returned as an explicit list.
Account ids and the unsigned integer ids are modelled as `Nat`; the code
only compares them for equality, so no word-size arithmetic arises.
-/

/-- Opaque comparable account identity (ink `AccountId`). -/
abbrev AccountId := Nat

/-- Unsigned-integer contribution key (`types::ContributionId`). -/
abbrev ContributionId := Nat

/-- Alias used by the message signatures (`types::ContributorId`). -/
abbrev ContributorId := Nat

/-- The approval record stored in the mapping (`types::Contribution`). -/
structure Contribution where
  id : ContributionId
  contributor : AccountId
deriving DecidableEq, Repr

/-- Error of the openbrush `Ownable` guard. -/
inductive OwnableError where
  | CallerIsNotOwner
deriving DecidableEq, Repr

/-- The contract error type (`errors::DemoError`), as used by `lib.rs`. -/
inductive DemoError where
  | ContributionAlreadyApproved
  | NoContributionApprovedYet
  | OwnableError (e : OwnableError)
deriving DecidableEq, Repr

/-- The `ContributionApproval` event emitted on a successful `approve`. -/
structure ContributionApproval where
  id : ContributorId
  contributor : AccountId
deriving DecidableEq, Repr

/-- Lookup in the persistent mapping (`ink::storage::Mapping::get`). -/
def mappingGet : List (ContributionId × Contribution) → ContributionId → Option Contribution
  | [], _ => none
  | (k, v) :: rest, key => if k = key then some v else mappingGet rest key

/-- Write to the persistent mapping (`ink::storage::Mapping::insert`):
sets the value at the key, overwriting any previous entry. -/
def mappingInsert : List (ContributionId × Contribution) → ContributionId → Contribution →
    List (ContributionId × Contribution)
  | [], key, v => [(key, v)]
  | (k, v0) :: rest, key, v =>
      if k = key then (key, v) :: rest else (k, v0) :: mappingInsert rest key v

/-- The contract storage (`Demo`): the owner kept by `ownable::Data`
(an optional account, set by `_init_with_owner`) and the `contributions`
mapping. -/
structure Demo where
  owner : Option AccountId
  contributions : List (ContributionId × Contribution)
deriving DecidableEq, Repr

/-- Constructor `Demo::new`: default storage, then
`ownable::Internal::_init_with_owner(&mut instance, Self::env().caller())`. -/
def Demo.new (caller : AccountId) : Demo :=
  { owner := some caller, contributions := [] }

/-- Message `Demo::approve`. The `#[modifiers(only_owner)]` attribute
runs the openbrush ownership guard before the body: if the recorded owner
is not the caller it returns `OwnableError::CallerIsNotOwner` (wrapped
into `DemoError`) without touching storage. The body looks the id up in
`contributions`; a present entry yields `ContributionAlreadyApproved`,
otherwise the record is inserted and one `ContributionApproval` event is
emitted. Returns the call result, the post-state and the emitted events. -/
def Demo.approve (st : Demo) (caller : AccountId) (contribution_id : ContributorId)
    (contributor : AccountId) :
    Except DemoError Unit × Demo × List ContributionApproval :=
  if st.owner = some caller then
    match mappingGet st.contributions contribution_id with
    | some _ => (Except.error DemoError.ContributionAlreadyApproved, st, [])
    | none =>
        let contribution : Contribution := { id := contribution_id, contributor := contributor }
        (Except.ok (),
         { st with contributions := mappingInsert st.contributions contribution_id contribution },
         [{ id := contribution_id, contributor := contributor }])
  else
    (Except.error (DemoError.OwnableError OwnableError.CallerIsNotOwner), st, [])

/-- Message `Demo::check` (takes `&self`): look the id up, fail with
`NoContributionApprovedYet` when absent, otherwise compare the recorded
contributor with the caller. -/
def Demo.check (st : Demo) (caller : AccountId) (contribution_id : ContributorId) :
    Except DemoError Bool :=
  match mappingGet st.contributions contribution_id with
  | none => Except.error DemoError.NoContributionApprovedYet
  | some contribution => Except.ok (contribution.contributor == caller)

deriving instance DecidableEq for Except

/-- A message call to the contract together with the ambient caller. -/
inductive Call where
  | approve (caller : AccountId) (contribution_id : ContributorId) (contributor : AccountId)
  | check (caller : AccountId) (contribution_id : ContributorId)
deriving DecidableEq, Repr

/-- The result value a call returned. -/
inductive Outcome where
  | approved (r : Except DemoError Unit)
  | checked (r : Except DemoError Bool)
deriving DecidableEq, Repr

/-- One serialized contract invocation: dispatch the call, producing the
post-state, the outcome and the emitted events. `check` takes `&self`, so
its branch leaves the state untouched. -/
def step (st : Demo) : Call → Demo × Outcome × List ContributionApproval
  | Call.approve caller cid contributor =>
      ((st.approve caller cid contributor).2.1,
       Outcome.approved (st.approve caller cid contributor).1,
       (st.approve caller cid contributor).2.2)
  | Call.check caller cid =>
      (st, Outcome.checked (st.check caller cid), [])

/-- Run a serialized sequence of calls from a state, recording each
call's outcome next to it. -/
def run (st : Demo) : List Call → Demo × List (Call × Outcome)
  | [] => (st, [])
  | c :: rest =>
      ((run (step st c).1 rest).1,
       (c, (step st c).2.1) :: (run (step st c).1 rest).2)

/-- Whether a recorded call is a successful `approve` for the given id. -/
def approveSucceededFor (pr : Call × Outcome) (id : ContributionId) : Bool :=
  match pr with
  | (Call.approve _ cid _, Outcome.approved (Except.ok _)) => cid == id
  | _ => false

/-! Helper lemmas about the mapping and about `approve`. -/

/-- Reading the mapping after `mappingInsert` returns the written value
at the written key and is unchanged elsewhere. -/
theorem mappingGet_mappingInsert (m : List (ContributionId × Contribution))
    (k key : ContributionId) (v : Contribution) :
    mappingGet (mappingInsert m k v) key = if k = key then some v else mappingGet m key := by
  induction m with
  | nil => simp [mappingInsert, mappingGet]
  | cons hd tl ih =>
      obtain ⟨k0, v0⟩ := hd
      by_cases h1 : k0 = k
      · subst h1
        by_cases h2 : k0 = key <;> simp [mappingInsert, mappingGet, h2]
      · by_cases h2 : k0 = key
        · subst h2
          have h3 : ¬ k = k0 := fun h => h1 h.symm
          simp [mappingInsert, mappingGet, h1, h3]
        · simp [mappingInsert, mappingGet, h1, h2, ih]

/-- `approve` succeeds exactly when the caller is the recorded owner and
the id is not yet in the mapping. -/
theorem approve_ok_iff (st : Demo) (caller : AccountId) (cid : ContributorId)
    (contributor : AccountId) :
    (st.approve caller cid contributor).1 = Except.ok () ↔
      st.owner = some caller ∧ mappingGet st.contributions cid = none := by
  by_cases how : st.owner = some caller
  · cases hg : mappingGet st.contributions cid <;> simp [Demo.approve, how, hg]
  · simp [Demo.approve, how]

/-- The post-state of a successful `approve`: the record is inserted
under its id and nothing else changes. -/
theorem approve_ok_state (st : Demo) (caller : AccountId) (cid : ContributorId)
    (contributor : AccountId) (how : st.owner = some caller)
    (hg : mappingGet st.contributions cid = none) :
    (st.approve caller cid contributor).2.1 =
      { st with contributions :=
          mappingInsert st.contributions cid { id := cid, contributor := contributor } } := by
  simp [Demo.approve, how, hg]

/-- A failing `approve` leaves the state unchanged. -/
theorem approve_fail_state (st : Demo) (caller : AccountId) (cid : ContributorId)
    (contributor : AccountId)
    (h : (st.approve caller cid contributor).1 ≠ Except.ok ()) :
    (st.approve caller cid contributor).2.1 = st := by
  by_cases how : st.owner = some caller
  · cases hg : mappingGet st.contributions cid with
    | some v => simp [Demo.approve, how, hg]
    | none => exact absurd (by simp [Demo.approve, how, hg]) h
  · simp [Demo.approve, how]

/-- One step adds an entry for an id exactly when that step is a
successful `approve` for the id (or the entry was already there). -/
theorem step_mapping_isSome (st : Demo) (c : Call) (id : ContributionId) :
    (mappingGet (step st c).1.contributions id).isSome = true ↔
      ((mappingGet st.contributions id).isSome = true ∨
        approveSucceededFor (c, (step st c).2.1) id = true) := by
  cases c with
  | check caller cid => simp [step, approveSucceededFor]
  | approve caller cid contributor =>
      by_cases how : st.owner = some caller
      · cases hg : mappingGet st.contributions cid with
        | some v => simp [step, Demo.approve, how, hg, approveSucceededFor]
        | none =>
            by_cases hid : cid = id
            · subst hid
              simp [step, Demo.approve, how, hg, approveSucceededFor,
                mappingGet_mappingInsert]
            · simp [step, Demo.approve, how, hg, approveSucceededFor,
                mappingGet_mappingInsert, hid]
      · simp [step, Demo.approve, how, approveSucceededFor]

/-- Along any run, an entry for an id is present at the end exactly when
it was present at the start or some recorded `approve` for it succeeded. -/
theorem run_mapping_isSome (cs : List Call) (st : Demo) (id : ContributionId) :
    (mappingGet (run st cs).1.contributions id).isSome = true ↔
      ((mappingGet st.contributions id).isSome = true ∨
        ∃ pr ∈ (run st cs).2, approveSucceededFor pr id = true) := by
  induction cs generalizing st with
  | nil => simp [run]
  | cons c rest ih =>
      simp only [run]
      rw [ih (step st c).1, step_mapping_isSome]
      simp only [List.exists_mem_cons_iff]
      tauto

/-! Claim theorems. -/

/-- C5: for every principal P, constructing the registry with caller P
yields a state whose recorded owner equals P. -/
theorem new_sets_owner (P : AccountId) : (Demo.new P).owner = some P := rfl

/-- C9: `check` never mutates state: for every id and caller, the whole
registry state after a `check` call (whatever it returns) equals the
state before the call. -/
theorem check_preserves_state (st : Demo) (caller : AccountId) (id : ContributionId) :
    (step st (Call.check caller id)).1 = st := rfl

/-- C10: the outcome of `approve` does not depend on the contributor
argument: for every state, id and caller, the results of approving any
two contributors are identical (both succeed or both fail with the same
error), so no validation is applied to the contributor. -/
theorem approve_result_ignores_contributor (st : Demo) (caller : AccountId)
    (id : ContributionId) (C1 C2 : AccountId) :
    (st.approve caller id C1).1 = (st.approve caller id C2).1 := by
  by_cases how : st.owner = some caller
  · cases hg : mappingGet st.contributions id <;> simp [Demo.approve, how, hg]
  · simp [Demo.approve, how]

/-- C6: every `approve` call emits exactly one
`ContributionApproval{id, contributor}` event when it returns Ok, and no
event when it returns any error. -/
theorem approve_event_emission (st : Demo) (caller : AccountId) (I : ContributionId)
    (C : AccountId) :
    (st.approve caller I C).2.2 =
      match (st.approve caller I C).1 with
      | Except.ok _ => [{ id := I, contributor := C }]
      | Except.error _ => [] := by
  by_cases how : st.owner = some caller
  · cases hg : mappingGet st.contributions I <;> simp [Demo.approve, how, hg]
  · simp [Demo.approve, how]

/-- C1: after a successful `approve(I, C1)` by the owner, a subsequent
`approve(I, C2)` by the owner (any C2, including C2 = C1) fails with
`ContributionAlreadyApproved`, and the stored record for I still equals
the record with id I and contributor C1. -/
theorem approve_first_write_wins (st : Demo) (ownr I C1 C2 : Nat)
    (h : (st.approve ownr I C1).1 = Except.ok ()) :
    ((st.approve ownr I C1).2.1.approve ownr I C2).1 =
        Except.error DemoError.ContributionAlreadyApproved ∧
      mappingGet ((st.approve ownr I C1).2.1.approve ownr I C2).2.1.contributions I =
        some { id := I, contributor := C1 } := by
  rw [approve_ok_iff] at h
  obtain ⟨how, hg⟩ := h
  rw [approve_ok_state st ownr I C1 how hg]
  constructor
  · simp [Demo.approve, how, mappingGet_mappingInsert]
  · simp [Demo.approve, how, mappingGet_mappingInsert]

/-- C1 witness: a concrete double-approval of id 7. -/
theorem approve_first_write_wins_witness :
    (((Demo.new 0).approve 0 7 1).2.1.approve 0 7 5).1 =
        Except.error DemoError.ContributionAlreadyApproved ∧
      mappingGet (((Demo.new 0).approve 0 7 1).2.1.approve 0 7 5).2.1.contributions 7 =
        some { id := 7, contributor := 1 } :=
  approve_first_write_wins (Demo.new 0) 0 7 1 5 (by decide)

/-- C2: for a caller P different from the recorded owner, `approve`
fails with the wrapped `CallerIsNotOwner` error and leaves the entire
state (owner and contributions mapping) unchanged. -/
theorem approve_not_owner_no_mutation (st : Demo) (O P I C : Nat)
    (how : st.owner = some O) (hne : P ≠ O) :
    (st.approve P I C).1 =
        Except.error (DemoError.OwnableError OwnableError.CallerIsNotOwner) ∧
      (st.approve P I C).2.1 = st := by
  have h : ¬ st.owner = some P := by
    rw [how]
    intro hc
    exact hne (Option.some.inj hc).symm
  simp [Demo.approve, h]

/-- C2 witness: caller 3 against an owner 5. -/
theorem approve_not_owner_no_mutation_witness :
    ((Demo.new 5).approve 3 1 2).1 =
        Except.error (DemoError.OwnableError OwnableError.CallerIsNotOwner) ∧
      ((Demo.new 5).approve 3 1 2).2.1 = Demo.new 5 :=
  approve_not_owner_no_mutation (Demo.new 5) 5 3 1 2 (by decide) (by decide)

/-- C3: after `approve(I, C)` succeeds, `check(I)` with caller Q returns
Ok of the stored contributor compared with Q, and that comparison is
true exactly when Q = C. -/
theorem check_attribution_after_approve (st : Demo) (caller Q I C : Nat)
    (h : (st.approve caller I C).1 = Except.ok ()) :
    (st.approve caller I C).2.1.check Q I = Except.ok (C == Q) ∧
      ((C == Q) = true ↔ Q = C) := by
  rw [approve_ok_iff] at h
  obtain ⟨how, hg⟩ := h
  rw [approve_ok_state st caller I C how hg]
  refine ⟨by simp [Demo.check, mappingGet_mappingInsert], ?_⟩
  constructor
  · intro hb
    exact (eq_of_beq hb).symm
  · intro he
    subst he
    exact beq_self_eq_true Q

/-- C3 witness: caller 2 checks id 1 approved for contributor 2. -/
theorem check_attribution_after_approve_witness :
    ((Demo.new 0).approve 0 1 2).2.1.check 2 1 = Except.ok (2 == 2) ∧
      (((2 : Nat) == 2) = true ↔ (2 : Nat) = 2) :=
  check_attribution_after_approve (Demo.new 0) 0 2 1 2 (by decide)

/-- C7: the contributions mapping is monotonic across any single
operation (`approve` or `check`): an entry present before the operation
is still present with the same stored value after it. -/
theorem contributions_monotonic_step (st : Demo) (c : Call) (id : ContributionId)
    (ct : Contribution) (h : mappingGet st.contributions id = some ct) :
    mappingGet (step st c).1.contributions id = some ct := by
  cases c with
  | check caller cid => simpa [step] using h
  | approve caller cid contributor =>
      by_cases how : st.owner = some caller
      · cases hg : mappingGet st.contributions cid with
        | some v => simpa [step, Demo.approve, how, hg] using h
        | none =>
            have hne : ¬ cid = id := by
              intro he
              rw [he, h] at hg
              cases hg
            simp [step, Demo.approve, how, hg, mappingGet_mappingInsert, hne, h]
      · simpa [step, Demo.approve, how] using h

/-- C7 witness: the entry for id 1 survives an `approve` of id 4. -/
theorem contributions_monotonic_step_witness :
    mappingGet (step ((Demo.new 0).approve 0 1 2).2.1 (Call.approve 0 4 3)).1.contributions 1 =
      some { id := 1, contributor := 2 } :=
  contributions_monotonic_step ((Demo.new 0).approve 0 1 2).2.1 (Call.approve 0 4 3) 1
    { id := 1, contributor := 2 } (by decide)

/-- C8: in every state reachable from construction by a sequence of
`approve` and `check` calls, a record exists under an id if and only if
some `approve` call for that id in the sequence returned Ok. -/
theorem reachable_contribution_iff_approved (P : AccountId) (cs : List Call)
    (id : ContributionId) :
    (mappingGet (run (Demo.new P) cs).1.contributions id).isSome = true ↔
      ∃ pr ∈ (run (Demo.new P) cs).2, approveSucceededFor pr id = true := by
  rw [run_mapping_isSome]
  simp [Demo.new, mappingGet]

/-- C4: for an id for which no `approve` call has succeeded along the
run, `check` by any caller fails with `NoContributionApprovedYet`. -/
theorem check_unknown_id_fails (P Q : AccountId) (cs : List Call) (I : ContributionId)
    (h : ∀ pr ∈ (run (Demo.new P) cs).2, approveSucceededFor pr I = false) :
    (run (Demo.new P) cs).1.check Q I = Except.error DemoError.NoContributionApprovedYet := by
  have hnone : mappingGet (run (Demo.new P) cs).1.contributions I = none := by
    cases hg : mappingGet (run (Demo.new P) cs).1.contributions I with
    | none => rfl
    | some v =>
        have hs : (mappingGet (run (Demo.new P) cs).1.contributions I).isSome = true := by
          rw [hg]
          rfl
        rw [run_mapping_isSome] at hs
        rcases hs with h1 | ⟨pr, hmem, hsucc⟩
        · simp [Demo.new, mappingGet] at h1
        · rw [h pr hmem] at hsucc
          cases hsucc
  simp [Demo.check, hnone]

/-- C4 witness: after a run with one failing `approve` and one `check`,
looking up id 3 still fails. -/
theorem check_unknown_id_fails_witness :
    (run (Demo.new 0) [Call.approve 9 3 4, Call.check 2 5]).1.check 1 3 =
      Except.error DemoError.NoContributionApprovedYet :=
  check_unknown_id_fails 0 1 [Call.approve 9 3 4, Call.check 2 5] 3 (by decide)
